import Mathlib

set_option maxHeartbeats 1000000

/-! Shallow embedding of the data-fetching core of `src/App.tsx` (the
Pokemon dashboard): JSON-like values, JavaScript property-access and
coercion semantics for the expressions the component evaluates, an
abstract fetch environment, and the component's operations
`fetchPokemonList`, `fetchPokemonDetails` and the retry handler.
`Except Unit` models a thrown-and-caught JavaScript exception; `Option`
at the value level models a possibly-`undefined` value. -/

/-- JSON-like runtime values as manipulated by the component.  Numbers and
booleans are omitted: no code path under study produces or branches on
them. -/
inductive JVal where
  | null : JVal
  | str : String → JVal
  | obj : List (String × JVal) → JVal
  | arr : List JVal → JVal

/-- First binding for key `k` in an object's field list. -/
def lookupField : List (String × JVal) → String → Option JVal
  | [], _ => none
  | (k', v) :: fs, k => if k' = k then some v else lookupField fs k

/-- Property access `v.k` on a defined value: throws (TypeError) on `null`,
yields the field (or `undefined`) on objects, `undefined` on other values. -/
def JVal.get : JVal → String → Except Unit (Option JVal)
  | .null, _ => .error ()
  | .obj fs, k => .ok (lookupField fs k)
  | _, _ => .ok none

/-- Property access `v.k` where `v` may be `undefined`: access on
`undefined` throws. -/
def getO : Option JVal → String → Except Unit (Option JVal)
  | none, _ => .error ()
  | some v, k => v.get k

/-- Optional chaining `v?.k`: `undefined`/`null` short-circuit to
`undefined` instead of throwing. -/
def optChain : Option JVal → String → Except Unit (Option JVal)
  | none, _ => .ok none
  | some .null, _ => .ok none
  | some v, k => v.get k

/-- Index access `v[i]`: throws on `undefined`/`null`, yields the element
(or `undefined`) on arrays, `undefined` on other values. -/
def indexO : Option JVal → Nat → Except Unit (Option JVal)
  | none, _ => .error ()
  | some .null, _ => .error ()
  | some (.arr xs), i => .ok (xs.get? i)
  | some _, _ => .ok none

/-- JavaScript truthiness restricted to the values of this model: `null`
and the empty string are falsy. -/
def truthy : JVal → Bool
  | .null => false
  | .str s => s ≠ ""
  | .obj _ => true
  | .arr _ => true

/-- `a || b` on a possibly-`undefined` left operand. -/
def jsOr (v : Option JVal) (dflt : JVal) : JVal :=
  match v with
  | some x => if truthy x then x else dflt
  | none => dflt

/-- String coercion of a defined value, as applied by `fetch` to its
argument.  Array coercion is approximated by `""`; no claim exercises it. -/
def jsToStr : JVal → String
  | .null => "null"
  | .str s => s
  | .obj _ => "[object Object]"
  | .arr _ => ""

/-- String coercion of a possibly-`undefined` value. -/
def jsToStrO : Option JVal → String
  | none => "undefined"
  | some v => jsToStr v

/-- Replace (or add) field `k` of an object's field list. -/
def setField (fs : List (String × JVal)) (k : String) (v : JVal) :
    List (String × JVal) :=
  fs.filter (fun p => p.1 ≠ k) ++ [(k, v)]

/-- The object literal `{...v, k: x}`.  Spreading a non-object contributes
no string-keyed own fields relevant to this model. -/
def spreadSet (v : JVal) (k : String) (x : JVal) : JVal :=
  match v with
  | .obj fs => .obj (setField fs k x)
  | _ => .obj [(k, x)]

/-- Outcome of one `fetch` call: rejection (network error), or a response
carrying its HTTP success flag and a body that `json()` either parses or
fails on. -/
inductive FetchResult where
  | netErr : FetchResult
  | resp (ok : Bool) (body : Except Unit JVal) : FetchResult

/-- The network, as a pure map from URL to outcome. -/
def Fetch := String → FetchResult

/-- `const response = await fetch(url); const data = await response.json()`
as executed by the component: the response's HTTP success flag is never
consulted. -/
def fetchJson (env : Fetch) (url : String) : Except Unit JVal :=
  match env url with
  | .netErr => .error ()
  | .resp _ body => body

/-- Two fetch outcomes that may differ only in the HTTP success flag. -/
def sameBody : FetchResult → FetchResult → Prop := fun r r' =>
  match r, r' with
  | .netErr, .netErr => True
  | .resp _ b, .resp _ b' => b = b'
  | _, _ => False

/-- Trace events instrumenting the per-item preview fetches of a list
load: when each fetch is issued and when it settles. -/
inductive Event where
  | issue (url : String) : Event
  | settle (url : String) : Event
  deriving DecidableEq

/-- One element of `pokemonList`:
`{name: pokemon.name, url: pokemon.url, image: details.sprites.front_default}`.
Each field holds a possibly-`undefined` runtime value. -/
structure PreviewItem where
  name : Option JVal
  url : Option JVal
  image : Option JVal

/-- The component's state hooks. -/
structure AppState where
  pokemonList : List PreviewItem
  selectedPokemon : Option JVal
  loading : Bool
  detailsLoading : Bool
  error : Option String
  detailsError : Option String

/-- `useState<any[]>([])`, `useState<any>(null)`, `useState(false)`,
`useState<string | null>(null)`. -/
def initialState : AppState :=
  { pokemonList := []
    selectedPokemon := none
    loading := false
    detailsLoading := false
    error := none
    detailsError := none }

/-- `data.species.url` as evaluated inside `fetchPokemonDetails`. -/
def speciesUrlExpr (data : JVal) : Except Unit (Option JVal) := do
  getO (← data.get "species") "url"

/-- `speciesData.flavor_text_entries[0]?.flavor_text || 'No description'`. -/
def descOf (speciesData : JVal) : Except Unit JVal := do
  let fte ← speciesData.get "flavor_text_entries"
  let e0 ← indexO fte 0
  let ft ← optChain e0 "flavor_text"
  pure (jsOr ft (.str "No description"))

/-- The try-block of `fetchPokemonDetails`: primary fetch, dependent
species fetch, description extraction, and the merge
`{...data, description}`. -/
def resolveExpanded (env : Fetch) (url : String) : Except Unit JVal := do
  let data ← fetchJson env url
  let spUrl ← speciesUrlExpr data
  let speciesData ← fetchJson env (jsToStrO spUrl)
  let desc ← descOf speciesData
  pure (spreadSet data "description" desc)

/-- `fetchPokemonDetails(url)` run to completion against the current
state: sets `detailsLoading`/`detailsError`, then either stores the merged
record or the catch-block's error message, and finally clears
`detailsLoading`. -/
def fetchPokemonDetails (env : Fetch) (url : String) (st : AppState) :
    AppState :=
  let st1 := { st with detailsLoading := true, detailsError := none }
  match resolveExpanded env url with
  | .ok r =>
      { st1 with selectedPokemon := some r, detailsLoading := false }
  | .error _ =>
      { st1 with detailsError := some "Failed to load Pokemon details",
                 detailsLoading := false }

/-- The details widget's retry handler
`() => selectedPokemon && fetchPokemonDetails(selectedPokemon.species.url)`.
The argument expression is evaluated outside any try-block, so a throw
there surfaces as an uncaught handler error (`Except.error`). -/
def onRetry (env : Fetch) (st : AppState) : Except Unit AppState :=
  match st.selectedPokemon with
  | none => .ok st
  | some sel =>
      if truthy sel then do
        let spUrl ← getO (← sel.get "species") "url"
        .ok (fetchPokemonDetails env (jsToStrO spUrl) st)
      else .ok st

/-- The catalog index endpoint. -/
def pokeIndexUrl : String := "https://pokeapi.co/api/v2/pokemon?limit=1000"

/-- `data.results` coerced to an array.  A non-array `results` value sends
the sampling loop into `NaN` arithmetic; it is modelled as a failure and
is exercised by no claim. -/
def getResults (data : JVal) : Except Unit (List JVal) := do
  let r ← data.get "results"
  match r with
  | some (.arr xs) => pure xs
  | _ => .error ()

/-- `Math.floor(Math.random() * len)` for the `k`-th call of
`Math.random()`: a value in `[0, len)` when `len > 0`, and `0` when
`len = 0`.  The random source is injected as the stream `r`. -/
def drawIndex (len : Nat) (r : Nat) : Nat :=
  if len = 0 then 0 else r % len

/-- The `while (randomPokemon.length < 10)` sampling loop.  `rand k` is
the `k`-th value of `Math.random()` (already scaled, see `drawIndex`);
`used` is the `usedIndices` set in insertion order; `acc` is
`randomPokemon`.  `none` means the loop has not finished within `fuel`
iterations. -/
def sampleLoop (results : List JVal) (rand : Nat → Nat) :
    Nat → Nat → List JVal → List Nat → Option (List JVal)
  | 0, _, _, _ => none
  | fuel + 1, k, acc, used =>
      if acc.length < 10 then
        if drawIndex results.length (rand k) ∈ used then
          sampleLoop results rand fuel (k + 1) acc used
        else
          sampleLoop results rand fuel (k + 1)
            (acc ++ [results.getD (drawIndex results.length (rand k)) .null])
            (used ++ [drawIndex results.length (rand k)])
      else some acc

/-- The `for (const pokemon of randomPokemon)` loop: one awaited fetch per
sampled entry, building `pokemonWithImages` together with the issue/settle
trace of those fetches. -/
def previewLoop (env : Fetch) : List JVal → Except Unit (List PreviewItem × List Event)
  | [] => .ok ([], [])
  | p :: ps => do
      let u ← p.get "url"
      let url := jsToStrO u
      let details ← fetchJson env url
      let nm ← p.get "name"
      let u2 ← p.get "url"
      let img ← getO (← details.get "sprites") "front_default"
      let (rest, tr) ← previewLoop env ps
      .ok (⟨nm, u2, img⟩ :: rest, Event.issue url :: Event.settle url :: tr)

/-- The synchronous prefix of `fetchPokemonList`:
`setLoading(true); setError(null);` — `pokemonList` untouched. -/
def loadListStart (st : AppState) : AppState :=
  { st with loading := true, error := none }

/-- The remainder of `fetchPokemonList` run against the current state:
index fetch, sampling loop, sequential preview fetches, then either
`setPokemonList` or the catch-block's error message, and finally
`setLoading(false)`.  `none` means the sampling loop is still running
after `fuel` iterations, so no state transition has occurred. -/
def loadListSettle (env : Fetch) (rand : Nat → Nat) (fuel : Nat)
    (st : AppState) : Option (AppState × List Event) :=
  let fail : AppState :=
    { st with error := some "Failed to load Pokemon", loading := false }
  match fetchJson env pokeIndexUrl with
  | .error _ => some (fail, [])
  | .ok data =>
      match getResults data with
      | .error _ => some (fail, [])
      | .ok results =>
          match sampleLoop results rand fuel 0 [] [] with
          | none => none
          | some items =>
              match previewLoop env items with
              | .error _ => some (fail, [])
              | .ok (pws, tr) =>
                  some ({ st with pokemonList := pws, loading := false }, tr)

/-! Interleaving model of overlapping `fetchPokemonDetails` invocations.
Each invocation suspends at its two fetches; between suspensions it runs
the source's synchronous code against the then-current shared state.
There is no generation token anywhere in the source: every settling
invocation writes the shared state unconditionally. -/

/-- What a suspended `fetchPokemonDetails` invocation is waiting for:
its primary fetch, or (carrying the parsed primary record) its dependent
species fetch. -/
inductive DetailCont where
  | awaitPrimary (url : String) : DetailCont
  | awaitSpecies (data : JVal) (speciesUrl : String) : DetailCont

/-- The synchronous prefix of `fetchPokemonDetails(url)`:
`setDetailsLoading(true); setDetailsError(null);` then issue the primary
fetch. -/
def startDetail (url : String) (st : AppState) : AppState × DetailCont :=
  ({ st with detailsLoading := true, detailsError := none },
   .awaitPrimary url)

/-- The catch-plus-finally epilogue of `fetchPokemonDetails`. -/
def detailFail (st : AppState) : AppState :=
  { st with detailsError := some "Failed to load Pokemon details",
            detailsLoading := false }

/-- Resume a suspended `fetchPokemonDetails` invocation once its awaited
fetch settles: run the following synchronous code against the current
shared state, returning the new state and the next suspension (if any). -/
def stepDetail (env : Fetch) (c : DetailCont) (st : AppState) :
    AppState × Option DetailCont :=
  match c with
  | .awaitPrimary url =>
      match fetchJson env url with
      | .error _ => (detailFail st, none)
      | .ok data =>
          match speciesUrlExpr data with
          | .error _ => (detailFail st, none)
          | .ok spUrl => (st, some (.awaitSpecies data (jsToStrO spUrl)))
  | .awaitSpecies data spUrl =>
      match fetchJson env spUrl with
      | .error _ => (detailFail st, none)
      | .ok speciesData =>
          match descOf speciesData with
          | .error _ => (detailFail st, none)
          | .ok desc =>
              ({ st with
                  selectedPokemon := some (spreadSet data "description" desc),
                  detailsLoading := false }, none)

/-- Scheduler choice: advance the first or the second of two overlapping
detail invocations. -/
inductive Who where
  | a : Who
  | b : Who
  deriving DecidableEq

/-- Two overlapping `fetchPokemonDetails` invocations over the shared
component state. -/
structure Machine where
  st : AppState
  taskA : Option DetailCont
  taskB : Option DetailCont

/-- Settle the chosen invocation's outstanding fetch (a no-op if that
invocation has already finished). -/
def mstep (env : Fetch) (m : Machine) (w : Who) : Machine :=
  match w with
  | .a =>
      match m.taskA with
      | none => m
      | some c =>
          let r := stepDetail env c m.st
          { st := r.1, taskA := r.2, taskB := m.taskB }
  | .b =>
      match m.taskB with
      | none => m
      | some c =>
          let r := stepDetail env c m.st
          { st := r.1, taskA := m.taskA, taskB := r.2 }

/-- Run a whole schedule of settle choices. -/
def runSched (env : Fetch) : Machine → List Who → Machine
  | m, [] => m
  | m, w :: ws => runSched env (mstep env m w) ws

/-- `selectEntry(uA)` immediately followed by `selectEntry(uB)`, both
issued before anything settles. -/
def overlapDetail (uA uB : String) (st : AppState) : Machine :=
  let pA := startDetail uA st
  let pB := startDetail uB pA.1
  { st := pB.1, taskA := some pA.2, taskB := some pB.2 }

/-! Spec-side request-state model and the reachable states of the
component. -/

/-- The spec's `RequestState<T>` model: `data` may be null. -/
structure RequestState (T : Type) where
  data : Option T
  loading : Bool
  error : Option String

/-- The list slot of the component's state, viewed through the spec's
`RequestState` model: the code holds a plain array, so the view's `data`
is always `some`. -/
def listView (st : AppState) : RequestState (List PreviewItem) :=
  { data := some st.pokemonList, loading := st.loading, error := st.error }

/-- States the component can reach: the initial hooks, and the effect of
each operation (a list load starting, a list load settling against the
then-current state, a detail fetch, a retry click) under arbitrary
network environments and random draws. -/
inductive Reachable : AppState → Prop
  | init : Reachable initialState
  | loadStart (st : AppState) : Reachable st → Reachable (loadListStart st)
  | loadSettle (st st' : AppState) (env : Fetch) (rand : Nat → Nat)
      (fuel : Nat) (tr : List Event) : Reachable st →
      loadListSettle env rand fuel st = some (st', tr) → Reachable st'
  | select (st : AppState) (env : Fetch) (url : String) : Reachable st →
      Reachable (fetchPokemonDetails env url st)
  | detailStart (st : AppState) (url : String) : Reachable st →
      Reachable (startDetail url st).1
  | detailStep (st : AppState) (env : Fetch) (c : DetailCont) :
      Reachable st → Reachable (stepDetail env c st).1
  | retry (st st' : AppState) (env : Fetch) : Reachable st →
      onRetry env st = .ok st' → Reachable st'

/-! Helper lemmas for reducing `Except` do-notation, and about the
object-merge primitives. -/

@[simp] theorem exceptBindOk {α β : Type} (a : α) (f : α → Except Unit β) :
    (Except.ok a >>= f : Except Unit β) = f a := rfl

@[simp] theorem exceptBindErr {α β : Type} (f : α → Except Unit β) :
    (Except.error () >>= f : Except Unit β) = Except.error () := rfl

@[simp] theorem exceptMapOk {α β : Type} (a : α) (f : α → β) :
    (f <$> Except.ok a : Except Unit β) = Except.ok (f a) := rfl

@[simp] theorem exceptMapErr {α β : Type} (f : α → β) :
    (f <$> Except.error () : Except Unit β) = Except.error () := rfl

theorem lookupField_setField_self (fs : List (String × JVal)) (k : String)
    (v : JVal) : lookupField (setField fs k v) k = some v := by
  induction fs with
  | nil => simp [setField, lookupField]
  | cons p ps ih =>
      by_cases h : p.1 = k
      · simpa [setField, List.filter_cons, h] using ih
      · simpa [setField, List.filter_cons, lookupField, h] using ih

theorem lookupField_setField_ne (fs : List (String × JVal)) (k k' : String)
    (v : JVal) (h : k' ≠ k) :
    lookupField (setField fs k v) k' = lookupField fs k' := by
  induction fs with
  | nil => simp [setField, lookupField, Ne.symm h]
  | cons p ps ih =>
      by_cases hp : p.1 = k
      · have hp' : p.1 ≠ k' := by simpa [hp] using Ne.symm h
        simpa [setField, List.filter_cons, lookupField, hp, hp', h,
          Ne.symm h] using ih
      · by_cases hk : p.1 = k'
        · simp [setField, List.filter_cons, lookupField, hp, hk, h,
            Ne.symm h]
        · simpa [setField, List.filter_cons, lookupField, hp, hk, h,
            Ne.symm h] using ih

theorem spreadSet_get_self (d : JVal) (x : JVal) :
    (spreadSet d "description" x).get "description" = .ok (some x) := by
  cases d <;>
    simp [spreadSet, JVal.get, lookupField_setField_self, lookupField]

theorem spreadSet_get_ne (d : JVal) (x : JVal) (k : String)
    (hd : d ≠ .null) (hk : k ≠ "description") :
    (spreadSet d "description" x).get k = d.get k := by
  cases d with
  | null => exact absurd rfl hd
  | str s => simp [spreadSet, JVal.get, lookupField, Ne.symm hk]
  | arr xs => simp [spreadSet, JVal.get, lookupField, Ne.symm hk]
  | obj fs => simp [spreadSet, JVal.get, lookupField_setField_ne _ _ _ _ hk]

/-- `optChain` never throws. -/
theorem optChain_isOk (v : Option JVal) (k : String) :
    ∃ w, optChain v k = .ok w := by
  match v with
  | none => exact ⟨none, rfl⟩
  | some .null => exact ⟨none, rfl⟩
  | some (.str s) => exact ⟨none, rfl⟩
  | some (.obj fs) => exact ⟨lookupField fs k, rfl⟩
  | some (.arr xs) => exact ⟨none, rfl⟩

/-- `descOf` on a species record whose designated list field is present:
the computed description is `jsOr` of the first entry's chained text. -/
theorem descOf_eq (sdata : JVal) (es : List JVal) (ft : Option JVal)
    (h : sdata.get "flavor_text_entries" = .ok (some (.arr es)))
    (hft : optChain es[0]? "flavor_text" = .ok ft) :
    descOf sdata = .ok (jsOr ft (.str "No description")) := by
  simp [descOf, h, indexO, hft]

/-! Lemmas about the sampling loop. -/

/-- With fewer than ten catalog entries the sampling loop can never exit:
`randomPokemon` and `usedIndices` grow in lockstep, `usedIndices` holds
distinct indices drawn from a pool of fewer than ten values, so the loop
guard `randomPokemon.length < 10` stays true forever. -/
theorem sampleLoop_stuck (results : List JVal) (rand : Nat → Nat)
    (hlen : results.length < 10) :
    ∀ fuel k acc used, acc.length = used.length → used.Nodup →
      (∀ i ∈ used, i < max results.length 1) →
      sampleLoop results rand fuel k acc used = none := by
  intro fuel
  induction fuel with
  | zero => intro k acc used _ _ _; rfl
  | succ n ih =>
      intro k acc used hl hnd hbnd
      have hsub : used.toFinset ⊆ Finset.range (max results.length 1) := by
        intro i hi
        exact Finset.mem_range.2 (hbnd i (List.mem_toFinset.1 hi))
      have hcard : used.length ≤ max results.length 1 := by
        have := Finset.card_le_card hsub
        rwa [List.toFinset_card_of_nodup hnd, Finset.card_range] at this
      have hmax : max results.length 1 ≤ 9 :=
        max_le (Nat.lt_succ_iff.1 hlen) (by norm_num)
      have hlt : acc.length < 10 :=
        lt_of_le_of_lt (hl ▸ le_trans hcard hmax) (by norm_num)
      have hdraw : drawIndex results.length (rand k) <
          max results.length 1 := by
        unfold drawIndex
        by_cases h0 : results.length = 0
        · simp [h0]
        · rw [if_neg h0]
          exact lt_of_lt_of_le (Nat.mod_lt _ (Nat.pos_of_ne_zero h0))
            (le_max_left _ _)
      rw [sampleLoop, if_pos hlt]
      by_cases hi : drawIndex results.length (rand k) ∈ used
      · rw [if_pos hi]
        exact ih (k + 1) acc used hl hnd hbnd
      · rw [if_neg hi]
        refine ih (k + 1) _ _ (by simp [hl]) ?_ ?_
        · simpa [List.nodup_append, hnd] using hi
        · intro j hj
          rcases List.mem_append.1 hj with hj | hj
          · exact hbnd j hj
          · have hj0 : j = drawIndex results.length (rand k) := by
              simpa using hj
            subst hj0
            exact hdraw

/-- What the sampling loop has done when it exits: it extended `acc` by
entries taken at pairwise-distinct fresh indices of `results`, and the
output length is exactly ten (unless `acc` already started longer). -/
theorem sampleLoop_some (results : List JVal) (rand : Nat → Nat)
    (hpos : 0 < results.length) :
    ∀ fuel k acc used out,
      sampleLoop results rand fuel k acc used = some out →
      out.length = max acc.length 10 ∧
      ∃ idxs : List Nat, idxs.Nodup ∧
        (∀ i ∈ idxs, i < results.length ∧ i ∉ used) ∧
        out = acc ++ idxs.map (fun i => results.getD i .null) := by
  intro fuel
  induction fuel with
  | zero => intro k acc used out h; cases h
  | succ n ih =>
      intro k acc used out
      rw [sampleLoop]
      have hdraw : drawIndex results.length (rand k) < results.length := by
        unfold drawIndex
        rw [if_neg hpos.ne']
        exact Nat.mod_lt _ hpos
      by_cases hlt : acc.length < 10
      · rw [if_pos hlt]
        by_cases hi : drawIndex results.length (rand k) ∈ used
        · rw [if_pos hi]
          intro h
          exact ih (k + 1) acc used out h
        · rw [if_neg hi]
          intro h
          obtain ⟨hlen', idxs, hnd, hprops, hout⟩ :=
            ih (k + 1) _ _ out h
          constructor
          · rw [hlen']
            simp only [List.length_append, List.length_cons,
              List.length_nil]
            omega
          · refine ⟨drawIndex results.length (rand k) :: idxs, ?_, ?_, ?_⟩
            · refine List.nodup_cons.2 ⟨fun hmem => ?_, hnd⟩
              exact ((hprops _ hmem).2) (by simp)
            · intro j hj
              rcases List.mem_cons.1 hj with rfl | hj
              · exact ⟨hdraw, hi⟩
              · obtain ⟨hjl, hju⟩ := hprops j hj
                exact ⟨hjl, fun hm => hju (by simp [hm])⟩
            · rw [hout]
              simp
      · rw [if_neg hlt]
        intro h
        cases h
        have h10 : 10 ≤ acc.length := Nat.le_of_not_lt hlt
        refine ⟨(Nat.max_eq_left h10).symm, [], List.nodup_nil,
          by simp, by simp⟩

/-- A full run of the sampling loop (as invoked by `fetchPokemonList`,
with empty accumulators), when it terminates: exactly ten entries, drawn
at pairwise-distinct in-range indices, in the order the indices were
selected. -/
theorem sampleLoop_run (results : List JVal) (rand : Nat → Nat)
    (fuel : Nat) (out : List JVal)
    (h : sampleLoop results rand fuel 0 [] [] = some out) :
    out.length = 10 ∧ ∃ idxs : List Nat, idxs.Nodup ∧ idxs.length = 10 ∧
      (∀ i ∈ idxs, i < results.length) ∧
      out = idxs.map (fun i => results.getD i .null) ∧
      ∀ x ∈ out, x ∈ results := by
  have hpos : 0 < results.length := by
    by_contra h0
    have hz : results.length < 10 := by omega
    rw [sampleLoop_stuck results rand hz fuel 0 [] [] rfl List.nodup_nil
      (by simp)] at h
    cases h
  obtain ⟨hlen, idxs, hnd, hprops, hout⟩ :=
    sampleLoop_some results rand hpos fuel 0 [] [] out h
  simp only [List.length_nil, Nat.max_eq_right (by norm_num : 0 ≤ 10),
    List.nil_append] at hlen hout
  have hmaplen : idxs.length = 10 := by
    have := congrArg List.length hout
    simpa [hlen.symm] using this.symm
  refine ⟨hlen, idxs, hnd, hmaplen, fun i hi => (hprops i hi).1, hout, ?_⟩
  intro x hx
  rw [hout] at hx
  obtain ⟨i, hi, rfl⟩ := List.mem_map.1 hx
  have hil : i < results.length := (hprops i hi).1
  rw [List.getD_eq_getElem _ _ hil]
  exact List.getElem_mem hil

/-! Lemmas about the per-item preview loop. -/

/-- A strictly sequential fetch trace: each fetch settles before the next
one is issued. -/
def seqTrace : List Event → Bool
  | [] => true
  | .issue u :: .settle v :: rest => u == v && seqTrace rest
  | _ => false

/-- Whether every issue event precedes every settle event of a different
URL: the observable signature of a concurrent fan-out.  On a trace of two
or more sequentially awaited fetches this is `false`. -/
def allIssuedBeforeAnySettles (tr : List Event) : Bool :=
  (List.range tr.length).all fun j =>
    (List.range tr.length).all fun k =>
      match tr.getD j (.issue ""), tr.getD k (.issue "") with
      | .issue u, .settle v => if u = v then true else decide (j < k)
      | _, _ => true

/-- A successful run of the preview loop resolved one item per sampled
entry, and its fetch trace is strictly sequential — in particular every
one of the `N` fetches has settled (two trace events each) before the
batch completes. -/
theorem previewLoop_ok (env : Fetch) : ∀ items pws tr,
    previewLoop env items = .ok (pws, tr) →
    pws.length = items.length ∧ tr.length = 2 * items.length ∧
      seqTrace tr = true := by
  intro items
  induction items with
  | nil =>
      intro pws tr h
      simp only [previewLoop] at h
      cases h
      simp [seqTrace]
  | cons p ps ih =>
      intro pws tr h
      simp only [previewLoop] at h
      cases hu : p.get "url" with
      | error e => rw [hu] at h; cases h
      | ok u =>
          rw [hu] at h
          simp only [exceptBindOk] at h
          cases hd : fetchJson env (jsToStrO u) with
          | error e => rw [hd] at h; cases e; cases h
          | ok details =>
              rw [hd] at h
              simp only [exceptBindOk] at h
              cases hnm : p.get "name" with
              | error e => rw [hnm] at h; cases e; cases h
              | ok nm =>
                  rw [hnm] at h
                  simp only [exceptBindOk] at h
                  cases hs : details.get "sprites" with
                  | error e => rw [hs] at h; cases e; cases h
                  | ok spr =>
                      rw [hs] at h
                      simp only [exceptBindOk] at h
                      cases hfd : getO spr "front_default" with
                      | error e => rw [hfd] at h; cases e; cases h
                      | ok img =>
                          rw [hfd] at h
                          simp only [exceptBindOk] at h
                          cases hrec : previewLoop env ps with
                          | error e => rw [hrec] at h; cases e; cases h
                          | ok pr =>
                              obtain ⟨rest, rtr⟩ := pr
                              rw [hrec] at h
                              simp only [exceptBindOk] at h
                              cases h
                              obtain ⟨h1, h2, h3⟩ := ih rest rtr hrec
                              refine ⟨by simp [h1], by simp [h2]; ring, ?_⟩
                              simpa [seqTrace] using h3

/-- If any sampled entry's preview fetch rejects, the whole loop throws
(the first failure aborts it). -/
theorem previewLoop_fail (env : Fetch) : ∀ items,
    (∃ p ∈ items, ∃ u, p.get "url" = .ok u ∧
        fetchJson env (jsToStrO u) = .error ()) →
    previewLoop env items = .error () := by
  intro items
  induction items with
  | nil => rintro ⟨p, hp, _⟩; cases hp
  | cons q ps ih =>
      rintro ⟨p, hp, u, hu, hf⟩
      rcases List.mem_cons.1 hp with rfl | hmem
      · simp [previewLoop, hu, hf]
      · simp only [previewLoop]
        cases hqu : q.get "url" with
        | error e => cases e; rfl
        | ok qu =>
            simp only [exceptBindOk]
            cases hqf : fetchJson env (jsToStrO qu) with
            | error e => cases e; rfl
            | ok d =>
                simp only [exceptBindOk]
                cases hnm : q.get "name" with
                | error e => cases e; rfl
                | ok nm =>
                    simp only [exceptBindOk]
                    cases hs : d.get "sprites" with
                    | error e => cases e; rfl
                    | ok spr =>
                        simp only [exceptBindOk]
                        cases hfd : getO spr "front_default" with
                        | error e => cases e; rfl
                        | ok img =>
                            simp only [exceptBindOk]
                            rw [ih ⟨p, hmem, u, hu, hf⟩]
                            rfl

/-! Congruence lemmas: none of the operations inspects the HTTP success
flag, so environments with identical rejection behaviour and bodies are
indistinguishable. -/

theorem fetchJson_congr (env env' : Fetch)
    (h : ∀ u, sameBody (env u) (env' u)) (u : String) :
    fetchJson env u = fetchJson env' u := by
  have hu := h u
  cases he : env u <;> cases he' : env' u <;>
    simp_all [sameBody, fetchJson]

theorem previewLoop_congr (env env' : Fetch)
    (h : ∀ u, sameBody (env u) (env' u)) :
    ∀ items, previewLoop env items = previewLoop env' items := by
  intro items
  induction items with
  | nil => rfl
  | cons p ps ih =>
      simp only [previewLoop,
        show ∀ u, fetchJson env u = fetchJson env' u from
          fetchJson_congr env env' h, ih]

theorem resolveExpanded_congr (env env' : Fetch)
    (h : ∀ u, sameBody (env u) (env' u)) (url : String) :
    resolveExpanded env url = resolveExpanded env' url := by
  simp only [resolveExpanded,
    show ∀ u, fetchJson env u = fetchJson env' u from
      fetchJson_congr env env' h]

theorem fetchPokemonDetails_congr (env env' : Fetch)
    (h : ∀ u, sameBody (env u) (env' u)) (url : String) (st : AppState) :
    fetchPokemonDetails env url st = fetchPokemonDetails env' url st := by
  simp only [fetchPokemonDetails, resolveExpanded_congr env env' h]

theorem loadListSettle_congr (env env' : Fetch)
    (h : ∀ u, sameBody (env u) (env' u)) (rand : Nat → Nat) (fuel : Nat)
    (st : AppState) :
    loadListSettle env rand fuel st = loadListSettle env' rand fuel st := by
  simp only [loadListSettle,
    show ∀ u, fetchJson env u = fetchJson env' u from
      fetchJson_congr env env' h,
    show ∀ items, previewLoop env items = previewLoop env' items from
      previewLoop_congr env env' h]

/-! Preservation lemmas: no detail-slot operation touches the list
slot's data. -/

theorem fetchPokemonDetails_pokemonList (env : Fetch) (url : String)
    (st : AppState) :
    (fetchPokemonDetails env url st).pokemonList = st.pokemonList := by
  unfold fetchPokemonDetails
  cases resolveExpanded env url <;> rfl

theorem stepDetail_pokemonList (env : Fetch) (c : DetailCont)
    (st : AppState) :
    (stepDetail env c st).1.pokemonList = st.pokemonList := by
  cases c with
  | awaitPrimary url =>
      cases hf : fetchJson env url with
      | error e => simp [stepDetail, hf, detailFail]
      | ok data =>
          cases hs : speciesUrlExpr data <;>
            simp [stepDetail, hf, hs, detailFail]
  | awaitSpecies data spUrl =>
      cases hf : fetchJson env spUrl with
      | error e => simp [stepDetail, hf, detailFail]
      | ok sd =>
          cases hd : descOf sd <;> simp [stepDetail, hf, hd, detailFail]

theorem onRetry_pokemonList (env : Fetch) (st st' : AppState)
    (h : onRetry env st = .ok st') :
    st'.pokemonList = st.pokemonList := by
  cases hsel : st.selectedPokemon with
  | none =>
      simp only [onRetry, hsel] at h
      cases h; rfl
  | some sel =>
      simp only [onRetry, hsel] at h
      by_cases ht : truthy sel = true
      · rw [if_pos ht] at h
        cases hsp : sel.get "species" with
        | error e => rw [hsp] at h; cases e; cases h
        | ok sv =>
            rw [hsp] at h
            simp only [exceptBindOk] at h
            cases hgu : getO sv "url" with
            | error e => rw [hgu] at h; cases e; cases h
            | ok spUrl =>
                rw [hgu] at h
                simp only [exceptBindOk] at h
                cases h
                exact fetchPokemonDetails_pokemonList env _ st
      · rw [if_neg ht] at h; cases h; rfl

/-- What a settling list load does to the list slot: on any failure the
previous `pokemonList` is kept and the stable message stored; on success
`pokemonList` is wholesale-replaced by the resolved batch and `error` is
left as the start transition set it. -/
theorem loadListSettle_cases (env : Fetch) (rand : Nat → Nat) (fuel : Nat)
    (st st' : AppState) (tr : List Event)
    (h : loadListSettle env rand fuel st = some (st', tr)) :
    (st'.pokemonList = st.pokemonList ∧ st'.loading = false ∧
      st'.error = some "Failed to load Pokemon") ∨
    (∃ data results items pws,
      fetchJson env pokeIndexUrl = .ok data ∧
      getResults data = .ok results ∧
      sampleLoop results rand fuel 0 [] [] = some items ∧
      previewLoop env items = .ok (pws, tr) ∧
      st'.pokemonList = pws ∧ st'.loading = false ∧
      st'.error = st.error) := by
  cases h1 : fetchJson env pokeIndexUrl with
  | error e =>
      cases e
      simp only [loadListSettle, h1] at h
      cases h; exact Or.inl ⟨rfl, rfl, rfl⟩
  | ok data =>
      simp only [loadListSettle, h1] at h
      cases h2 : getResults data with
      | error e =>
          cases e
          rw [h2] at h
          cases h; exact Or.inl ⟨rfl, rfl, rfl⟩
      | ok results =>
          simp only [h2] at h
          cases h3 : sampleLoop results rand fuel 0 [] [] with
          | none => simp only [h3] at h; cases h
          | some items =>
              simp only [h3] at h
              cases h4 : previewLoop env items with
              | error e =>
                  cases e
                  simp only [h4] at h
                  cases h; exact Or.inl ⟨rfl, rfl, rfl⟩
              | ok pr =>
                  obtain ⟨pws, ptr⟩ := pr
                  simp only [h4] at h
                  cases h
                  exact Or.inr ⟨data, results, items, pws, rfl, h2, h3, h4,
                    rfl, rfl, rfl⟩

/-- Invariant of every reachable component state: the list slot holds the
initial empty array or a full batch of exactly ten resolved previews. -/
theorem reachable_list_shape (st : AppState) (h : Reachable st) :
    st.pokemonList = [] ∨ st.pokemonList.length = 10 := by
  induction h with
  | init => exact Or.inl rfl
  | loadStart st1 _ ih => exact ih
  | loadSettle st1 st' env rand fuel tr _ hs ih =>
      rcases loadListSettle_cases env rand fuel st1 st' tr hs with
        ⟨hp, _, _⟩ | ⟨data, results, items, pws, _, _, hsam, hprev, hp, _, _⟩
      · rw [hp]; exact ih
      · right
        rw [hp, (previewLoop_ok env items pws tr hprev).1]
        exact (sampleLoop_run _ rand fuel items hsam).1
  | select st1 env url _ ih =>
      rw [fetchPokemonDetails_pokemonList]; exact ih
  | detailStart st1 url _ ih => exact ih
  | detailStep st1 env c _ ih => rw [stepDetail_pokemonList]; exact ih
  | retry st1 st' env _ hr ih => rw [onRetry_pokemonList env st1 st' hr]; exact ih

/-! Concrete network fixtures used by counterexamples and witnesses. -/

/-- Ten catalog entries, as the index endpoint returns them. -/
def entriesTen : List JVal :=
  [JVal.obj [("name", .str "n0"), ("url", .str "u0")],
   JVal.obj [("name", .str "n1"), ("url", .str "u1")],
   JVal.obj [("name", .str "n2"), ("url", .str "u2")],
   JVal.obj [("name", .str "n3"), ("url", .str "u3")],
   JVal.obj [("name", .str "n4"), ("url", .str "u4")],
   JVal.obj [("name", .str "n5"), ("url", .str "u5")],
   JVal.obj [("name", .str "n6"), ("url", .str "u6")],
   JVal.obj [("name", .str "n7"), ("url", .str "u7")],
   JVal.obj [("name", .str "n8"), ("url", .str "u8")],
   JVal.obj [("name", .str "n9"), ("url", .str "u9")]]

/-- An index body with ten entries. -/
def indexBodyTen : JVal := .obj [("results", .arr entriesTen)]

/-- An index body with only three entries. -/
def indexBodyThree : JVal := .obj [("results", .arr (entriesTen.take 3))]

/-- A primary record carrying a sprite image. -/
def spriteBody : JVal :=
  .obj [("sprites", .obj [("front_default", .str "img")])]

/-- The identity random stream: draw `k` yields `k` (mod the pool size),
so the first ten draws hit ten distinct indices. -/
def randSeq : Nat → Nat := fun k => k

/-- A healthy network whose every response carries a non-success HTTP
status but a well-formed body. -/
def envAllNonSuccess : Fetch := fun u =>
  if u = pokeIndexUrl then .resp false (.ok indexBodyTen)
  else .resp false (.ok spriteBody)

/-- The same bodies as `envAllNonSuccess`, with success statuses. -/
def envAllSuccess : Fetch := fun u =>
  if u = pokeIndexUrl then .resp true (.ok indexBodyTen)
  else .resp true (.ok spriteBody)

/-- A network where exactly one sampled entry's preview fetch rejects. -/
def envOneFail : Fetch := fun u =>
  if u = pokeIndexUrl then .resp true (.ok indexBodyTen)
  else if u = "u5" then .netErr
  else .resp true (.ok spriteBody)

/-- A network whose catalog index has only three entries. -/
def envSmallIndex : Fetch := fun u =>
  if u = pokeIndexUrl then .resp true (.ok indexBodyThree)
  else .netErr

/-- A network that rejects every fetch. -/
def envDown : Fetch := fun _ => .netErr

/-- The sampled batch drawn from `entriesTen` by `randSeq`. -/
def sampleOutTen : List JVal :=
  (sampleLoop entriesTen randSeq 11 0 [] []).getD []

/-- The list-slot failure state reached from the initial state. -/
def listFailState : AppState :=
  { pokemonList := [], selectedPokemon := none, loading := false,
    detailsLoading := false, error := some "Failed to load Pokemon",
    detailsError := none }

/-! Claim C8. -/

/-- C8: for every run of the sampler that returns (any input, any
injected random stream), the result has exactly ten entries, each present
in the input, selected at pairwise-distinct in-range input indices, and
the output order is the order in which the indices were selected (`out`
is the in-order image of the chronological index list `idxs`). -/
theorem catalogSampler_uniqueness (results : List JVal) (rand : Nat → Nat)
    (fuel : Nat) (out : List JVal)
    (h : sampleLoop results rand fuel 0 [] [] = some out) :
    out.length = 10 ∧ ∃ idxs : List Nat, idxs.Nodup ∧ idxs.length = 10 ∧
      (∀ i ∈ idxs, i < results.length) ∧
      out = idxs.map (fun i => results.getD i .null) ∧
      ∀ x ∈ out, x ∈ results :=
  sampleLoop_run results rand fuel out h

theorem catalogSampler_uniqueness_witness :
    sampleLoop entriesTen randSeq 11 0 [] [] = some sampleOutTen ∧
    (sampleOutTen.length = 10 ∧
      ∃ idxs : List Nat, idxs.Nodup ∧ idxs.length = 10 ∧
        (∀ i ∈ idxs, i < entriesTen.length) ∧
        sampleOutTen = idxs.map (fun i => entriesTen.getD i .null) ∧
        ∀ x ∈ sampleOutTen, x ∈ entriesTen) :=
  ⟨rfl, catalogSampler_uniqueness entriesTen randSeq 11 sampleOutTen rfl⟩

/-! Claim C9. -/

/-- C9: `loadList()` starts by setting `loading := true` and
`error := null` while leaving the previous list data untouched, so the
stale list stays visible for the whole in-flight period; and when the
load settles, the data is either still the previous list or was replaced
by a successful batch (settling with an error never replaces it). -/
theorem listSlot_staleWhileRevalidate (st : AppState) (env : Fetch)
    (rand : Nat → Nat) (fuel : Nat) (st' : AppState) (tr : List Event)
    (h : loadListSettle env rand fuel (loadListStart st) = some (st', tr)) :
    (loadListStart st).pokemonList = st.pokemonList ∧
    (loadListStart st).loading = true ∧
    (loadListStart st).error = none ∧
    (st'.pokemonList = st.pokemonList ∨ st'.error = none) := by
  refine ⟨rfl, rfl, rfl, ?_⟩
  rcases loadListSettle_cases env rand fuel (loadListStart st) st' tr h with
    ⟨hp, _, _⟩ | ⟨_, _, _, _, _, _, _, _, hp, _, herr⟩
  · exact Or.inl hp
  · exact Or.inr herr

theorem listSlot_staleWhileRevalidate_witness :
    (loadListStart initialState).pokemonList = initialState.pokemonList ∧
    (loadListStart initialState).loading = true ∧
    (loadListStart initialState).error = none ∧
    (listFailState.pokemonList = initialState.pokemonList ∨
      listFailState.error = none) :=
  listSlot_staleWhileRevalidate initialState envDown randSeq 1
    listFailState [] rfl

/-! Claim C10. -/

/-- C10: in every reachable component state the list slot's data is
non-null when viewed through the spec's `RequestState` model: it starts
as the empty array (not null) and is only ever wholesale-replaced by a
fully resolved ten-item batch, so a `null`-before-first-load state is
unrepresentable and an empty list is indistinguishable from
never-loaded. -/
theorem listSlot_data_never_null (st : AppState) (h : Reachable st) :
    (listView st).data ≠ none ∧
    (listView st).data = some st.pokemonList ∧
    (st.pokemonList = [] ∨ st.pokemonList.length = 10) :=
  ⟨fun hn => Option.noConfusion hn, rfl, reachable_list_shape st h⟩

theorem listSlot_data_never_null_witness :
    (listView initialState).data ≠ none ∧
    (listView initialState).data = some initialState.pokemonList ∧
    (initialState.pokemonList = [] ∨
      initialState.pokemonList.length = 10) :=
  listSlot_data_never_null initialState Reachable.init

/-! Claim C6. -/

/-- C6: if any one of the sampled entries' preview fetches fails, the
whole `loadList()` operation fails: the list slot's error is set to the
stable message `Failed to load Pokemon`, loading becomes false, and the
list data (as well as the whole detail slot) remains exactly what it was
before the call. -/
theorem listBatch_allOrNothing (env : Fetch) (rand : Nat → Nat)
    (fuel : Nat) (st : AppState) (data : JVal) (results items : List JVal)
    (h1 : fetchJson env pokeIndexUrl = .ok data)
    (h2 : getResults data = .ok results)
    (h3 : sampleLoop results rand fuel 0 [] [] = some items)
    (h4 : ∃ p ∈ items, ∃ u, p.get "url" = .ok u ∧
        fetchJson env (jsToStrO u) = .error ()) :
    ∃ st' tr,
      loadListSettle env rand fuel (loadListStart st) = some (st', tr) ∧
      st'.pokemonList = st.pokemonList ∧ st'.loading = false ∧
      st'.error = some "Failed to load Pokemon" ∧
      st'.selectedPokemon = st.selectedPokemon ∧
      st'.detailsLoading = st.detailsLoading ∧
      st'.detailsError = st.detailsError := by
  have hprev := previewLoop_fail env items h4
  have hset : loadListSettle env rand fuel (loadListStart st) =
      some ({ loadListStart st with
        error := some "Failed to load Pokemon", loading := false }, []) := by
    simp only [loadListSettle, h1, h2, h3, hprev]
  exact ⟨_, [], hset, rfl, rfl, rfl, rfl, rfl, rfl⟩

theorem listBatch_allOrNothing_witness :
    ∃ st' tr,
      loadListSettle envOneFail randSeq 11 (loadListStart initialState) =
        some (st', tr) ∧
      st'.pokemonList = initialState.pokemonList ∧ st'.loading = false ∧
      st'.error = some "Failed to load Pokemon" ∧
      st'.selectedPokemon = initialState.selectedPokemon ∧
      st'.detailsLoading = initialState.detailsLoading ∧
      st'.detailsError = initialState.detailsError :=
  listBatch_allOrNothing envOneFail randSeq 11 initialState indexBodyTen
    entriesTen sampleOutTen rfl rfl rfl
    ⟨JVal.obj [("name", .str "n5"), ("url", .str "u5")],
      .tail _ (.tail _ (.tail _ (.tail _ (.tail _ (.head _))))),
      some (.str "u5"), rfl, rfl⟩

/-! Claim C3. -/

/-- The list load never settles: for every fuel bound the sampling loop
is still running, so no state transition (neither success nor error)
ever happens. -/
def loadListNeverSettles (env : Fetch) (rand : Nat → Nat)
    (st : AppState) : Prop :=
  ∀ fuel, loadListSettle env rand fuel st = none

/-- C3 counterexample: with a three-entry index (fewer than the sample
size of ten) the code does not fail with any `InsufficientDataError` —
no such error exists in the code — instead the sampling loop never
terminates, so no user-visible load error is ever surfaced. -/
theorem insufficientData_counterexample :
    getResults indexBodyThree = .ok (entriesTen.take 3) ∧
    (entriesTen.take 3).length < 10 ∧
    loadListNeverSettles envSmallIndex randSeq (loadListStart initialState) := by
  refine ⟨rfl, by decide, ?_⟩
  intro fuel
  simp only [loadListSettle,
    show fetchJson envSmallIndex pokeIndexUrl = .ok indexBodyThree from rfl,
    show getResults indexBodyThree = .ok (entriesTen.take 3) from rfl,
    sampleLoop_stuck (entriesTen.take 3) randSeq (by decide) fuel 0 [] []
      rfl List.nodup_nil (by simp)]

/-- C3 (amended): for every input whose catalog index has fewer entries
than the fixed sample size of ten, the sampling loop never terminates:
`loadList()` neither succeeds nor errors (no `InsufficientDataError` is
raised and no user-visible load error is surfaced), and no per-item
preview fetch is ever issued. -/
theorem insufficientData_neverSettles (env : Fetch) (rand : Nat → Nat)
    (data : JVal) (results : List JVal) (st : AppState)
    (h1 : fetchJson env pokeIndexUrl = .ok data)
    (h2 : getResults data = .ok results)
    (h3 : results.length < 10) :
    ∀ fuel, loadListSettle env rand fuel st = none := by
  intro fuel
  simp only [loadListSettle, h1, h2,
    sampleLoop_stuck results rand h3 fuel 0 [] [] rfl List.nodup_nil
      (by simp)]

theorem insufficientData_neverSettles_witness :
    fetchJson envSmallIndex pokeIndexUrl = .ok indexBodyThree ∧
    getResults indexBodyThree = .ok (entriesTen.take 3) ∧
    (entriesTen.take 3).length < 10 ∧
    loadListSettle envSmallIndex randSeq 100 (loadListStart initialState) =
      none :=
  ⟨rfl, rfl, by decide,
    insufficientData_neverSettles envSmallIndex randSeq indexBodyThree
      (entriesTen.take 3) (loadListStart initialState) rfl rfl (by decide)
      100⟩

/-! Claim C4. -/

/-- A primary record that carries its own `description` field, to
exercise the merge's clobber protection. -/
def pdataP : JVal :=
  .obj [("name", .str "pika"), ("description", .str "own-field"),
    ("species", .obj [("url", .str "S")])]

/-- A species record whose first flavor-text entry is the empty string. -/
def sdataEmptyText : JVal :=
  .obj [("flavor_text_entries", .arr [.obj [("flavor_text", .str "")]])]

/-- A species record whose first flavor-text entry is non-empty. -/
def sdataTruthy : JVal :=
  .obj [("flavor_text_entries",
    .arr [.obj [("flavor_text", .str "A seed pokemon.")]])]

/-- Network for the empty-string flavor text scenario. -/
def envEmptyText : Fetch := fun u =>
  if u = "P" then .resp true (.ok pdataP)
  else if u = "S" then .resp true (.ok sdataEmptyText)
  else .netErr

/-- Network for the non-empty flavor text scenario. -/
def envTruthyText : Fetch := fun u =>
  if u = "P" then .resp true (.ok pdataP)
  else if u = "S" then .resp true (.ok sdataTruthy)
  else .netErr

/-- C4 counterexample: the species record's description list is nonempty
and its first entry's text is the empty string, yet expanded resolution
computes the sentinel `No description` instead of the first entry's text
verbatim (the `||` default also replaces the falsy empty string). -/
theorem description_counterexample :
    (resolveExpanded envEmptyText "P").map
      (fun r => r.get "description") =
      .ok (.ok (some (.str "No description"))) ∧
    sdataEmptyText.get "flavor_text_entries" =
      .ok (some (.arr [.obj [("flavor_text", .str "")]])) ∧
    optChain (some (JVal.obj [("flavor_text", .str "")])) "flavor_text" =
      .ok (some (.str "")) ∧
    "No description" ≠ "" :=
  ⟨rfl, rfl, rfl, by decide⟩

/-- A species record that lacks the `flavor_text_entries` field. -/
def sdataNoList : JVal := .obj [("name", .str "sp")]

/-- Network for the missing-description-list scenario. -/
def envMissingList : Fetch := fun u =>
  if u = "P" then .resp true (.ok pdataP)
  else if u = "S" then .resp true (.ok sdataNoList)
  else .netErr

/-- C4 (amended): expanded resolution merges the primary record with a
computed `description` that always wins over any same-named primary
field.  When `flavor_text_entries` is present as a list: an empty list
yields the sentinel `No description` without error; a first entry whose
text is a non-empty string yields that text verbatim; a falsy
first-entry text — the empty string, or a first entry with no
`flavor_text` at all — also yields the sentinel (the `||` default).
But when `flavor_text_entries` itself is absent or null, indexing it
throws before `?.` can apply, so the whole expanded resolution fails
and is surfaced as the detail slot's error with the prior record kept —
a missing field chain IS an error, contrary to the original claim. -/
theorem descriptionMerge (env : Fetch) (url : String) (pdata : JVal)
    (su : Option JVal) (sdata : JVal)
    (h1 : fetchJson env url = .ok pdata)
    (h2 : speciesUrlExpr pdata = .ok su)
    (h3 : fetchJson env (jsToStrO su) = .ok sdata) :
    (∀ es, sdata.get "flavor_text_entries" = .ok (some (.arr es)) →
      ∃ r, resolveExpanded env url = .ok r ∧
        (∀ k, k ≠ "description" → r.get k = pdata.get k) ∧
        (es = [] →
          r.get "description" = .ok (some (.str "No description"))) ∧
        (∀ e rest s, es = e :: rest →
          optChain (some e) "flavor_text" = .ok (some (.str s)) → s ≠ "" →
          r.get "description" = .ok (some (.str s))) ∧
        (∀ e rest, es = e :: rest →
          optChain (some e) "flavor_text" = .ok (some (.str "")) →
          r.get "description" = .ok (some (.str "No description"))) ∧
        (∀ e rest, es = e :: rest →
          optChain (some e) "flavor_text" = .ok none →
          r.get "description" = .ok (some (.str "No description")))) ∧
    (∀ fte, sdata.get "flavor_text_entries" = .ok fte →
      fte = none ∨ fte = some .null →
      resolveExpanded env url = .error () ∧
      ∀ st : AppState,
        (fetchPokemonDetails env url st).detailsError =
          some "Failed to load Pokemon details" ∧
        (fetchPokemonDetails env url st).selectedPokemon =
          st.selectedPokemon) := by
  have hnn : pdata ≠ .null := by
    intro hn
    rw [hn] at h2
    simp [speciesUrlExpr, JVal.get] at h2
  constructor
  · intro es h4
    obtain ⟨ft, hft⟩ := optChain_isOk es[0]? "flavor_text"
    have hdesc := descOf_eq sdata es ft h4 hft
    refine ⟨spreadSet pdata "description" (jsOr ft (.str "No description")),
      ?_, ?_, ?_, ?_, ?_, ?_⟩
    · simp [resolveExpanded, h1, h2, h3, hdesc, pure, Except.pure]
    · intro k hk
      exact spreadSet_get_ne pdata _ k hnn hk
    · intro he
      subst he
      simp only [List.getElem?_nil, optChain] at hft
      cases hft
      simp [spreadSet_get_self, jsOr]
    · intro e rest s he hfte hs
      subst he
      simp only [List.getElem?_cons_zero] at hft
      rw [hfte] at hft
      cases hft
      simp [spreadSet_get_self, jsOr, truthy, hs]
    · intro e rest he hfte
      subst he
      simp only [List.getElem?_cons_zero] at hft
      rw [hfte] at hft
      cases hft
      simp [spreadSet_get_self, jsOr, truthy]
    · intro e rest he hfte
      subst he
      simp only [List.getElem?_cons_zero] at hft
      rw [hfte] at hft
      cases hft
      simp [spreadSet_get_self, jsOr]
  · intro fte h4 hcase
    have hdescErr : descOf sdata = .error () := by
      rcases hcase with rfl | rfl <;> simp [descOf, h4, indexO]
    have hres : resolveExpanded env url = .error () := by
      simp [resolveExpanded, h1, h2, h3, hdescErr]
    refine ⟨hres, fun st => ?_⟩
    constructor <;> simp [fetchPokemonDetails, hres]

theorem descriptionMerge_witness :
    (∃ r, resolveExpanded envTruthyText "P" = .ok r ∧
      r.get "description" = .ok (some (.str "A seed pokemon.")) ∧
      r.get "name" = pdataP.get "name") ∧
    resolveExpanded envMissingList "P" = .error () ∧
    (fetchPokemonDetails envMissingList "P" initialState).detailsError =
      some "Failed to load Pokemon details" := by
  refine ⟨?_, ?_, ?_⟩
  · obtain ⟨hpresent, _⟩ :=
      descriptionMerge envTruthyText "P" pdataP (some (.str "S"))
        sdataTruthy rfl rfl rfl
    obtain ⟨r, hres, hpres, _, htr, _, _⟩ :=
      hpresent [JVal.obj [("flavor_text", .str "A seed pokemon.")]] rfl
    exact ⟨r, hres, htr _ _ _ rfl rfl (by decide), hpres "name" (by decide)⟩
  · obtain ⟨_, habsent⟩ :=
      descriptionMerge envMissingList "P" pdataP (some (.str "S"))
        sdataNoList rfl rfl rfl
    exact (habsent none rfl (Or.inl rfl)).1
  · obtain ⟨_, habsent⟩ :=
      descriptionMerge envMissingList "P" pdataP (some (.str "S"))
        sdataNoList rfl rfl rfl
    exact ((habsent none rfl (Or.inl rfl)).2 initialState).1

/-! Claim C5. -/

/-- The HTTP status information carried by a fetch outcome. -/
def statusOf : FetchResult → Option Bool
  | .netErr => none
  | .resp ok _ => some ok

/-- C5 counterexample: a network in which every response (the index
fetch and all ten preview fetches) carries a non-success HTTP status,
yet `fetchPokemonList` completes successfully — it stores the ten
previews and sets no error — because `response.ok` is never consulted
and the bodies parse. -/
theorem statusCheck_counterexample :
    ((pokeIndexUrl ::
      ["u0", "u1", "u2", "u3", "u4", "u5", "u6", "u7", "u8", "u9"]).all
      fun u => statusOf (envAllNonSuccess u) == some false) = true ∧
    (loadListSettle envAllNonSuccess randSeq 12
      (loadListStart initialState)).map
      (fun x => (x.1.error, x.1.loading, x.1.pokemonList.length)) =
      some (none, false, 10) :=
  ⟨by decide, rfl⟩

/-- C5 (amended): HTTP status codes are ignored entirely: both preview
and expanded resolution depend only on whether each fetch rejects and on
the response bodies, so two networks with identical rejection behaviour
and bodies — but arbitrarily different status codes — produce identical
list-load and detail-load outcomes.  A non-success response whose body
parses is processed as a success. -/
theorem statusBlind (env env' : Fetch)
    (h : ∀ u, sameBody (env u) (env' u)) (rand : Nat → Nat) (fuel : Nat)
    (st : AppState) (url : String) :
    loadListSettle env rand fuel st = loadListSettle env' rand fuel st ∧
    fetchPokemonDetails env url st = fetchPokemonDetails env' url st :=
  ⟨loadListSettle_congr env env' h rand fuel st,
   fetchPokemonDetails_congr env env' h url st⟩

theorem statusBlind_witness :
    loadListSettle envAllSuccess randSeq 12 (loadListStart initialState) =
      loadListSettle envAllNonSuccess randSeq 12
        (loadListStart initialState) ∧
    fetchPokemonDetails envAllSuccess "u0" initialState =
      fetchPokemonDetails envAllNonSuccess "u0" initialState :=
  statusBlind envAllSuccess envAllNonSuccess
    (fun u => by
      by_cases hp : u = pokeIndexUrl <;>
        simp [envAllSuccess, envAllNonSuccess, hp, sameBody])
    randSeq 12 initialState "u0"

/-! Claim C7. -/

/-- C7: the retry handler does not re-invoke the expanded resolution
with the originally selected reference URL: after a successful
`selectEntry("P")` (whose primary record points at species URL `"S"`),
clicking retry fetches `"S"` as if it were the primary reference, which
fails — while re-invoking with the original `"P"`, as the claim
prescribes, succeeds.  The no-op clause for an empty selection does
hold. -/
theorem retryDetail_bug :
    (fetchPokemonDetails envTruthyText "P" initialState).selectedPokemon =
      some (spreadSet pdataP "description" (.str "A seed pokemon.")) ∧
    (fetchPokemonDetails envTruthyText "P" initialState).detailsError =
      none ∧
    (onRetry envTruthyText
        (fetchPokemonDetails envTruthyText "P" initialState)).map
      (fun s => s.detailsError) =
      .ok (some "Failed to load Pokemon details") ∧
    (onRetry envTruthyText
        (fetchPokemonDetails envTruthyText "P" initialState)).map
      (fun s => s.selectedPokemon) =
      .ok (some (spreadSet pdataP "description" (.str "A seed pokemon."))) ∧
    (fetchPokemonDetails envTruthyText "P"
        (fetchPokemonDetails envTruthyText "P" initialState)).detailsError =
      none ∧
    onRetry envTruthyText initialState = .ok initialState :=
  ⟨rfl, rfl, rfl, rfl, rfl, rfl⟩

/-! Claim C2. -/

/-- C2 counterexample: on a fully healthy run of `fetchPokemonList` the
per-item fetch trace has twenty events (ten fetches — so at least two),
yet issue events do not all precede the settle events of the other
fetches: the fetches were not issued concurrently. -/
theorem concurrency_counterexample :
    (loadListSettle envAllSuccess randSeq 12
      (loadListStart initialState)).map
      (fun x => (allIssuedBeforeAnySettles x.2, x.2.length)) =
      some (false, 20) := rfl

/-- C2 (amended): the N per-item preview fetches are issued strictly
sequentially — each is issued only after the previous one has settled
(the trace alternates issue/settle pairwise) — and a successful batch
completes only after all N have settled, with one resolved preview per
sampled entry. -/
theorem previewFetches_sequential (env : Fetch) (items : List JVal)
    (pws : List PreviewItem) (tr : List Event)
    (h : previewLoop env items = .ok (pws, tr)) :
    seqTrace tr = true ∧ tr.length = 2 * items.length ∧
      pws.length = items.length := by
  obtain ⟨h1, h2, h3⟩ := previewLoop_ok env items pws tr h
  exact ⟨h3, h2, h1⟩

theorem previewFetches_sequential_witness :
    seqTrace
      ((previewLoop envAllSuccess sampleOutTen).toOption.getD
        ([], [])).2 = true ∧
    ((previewLoop envAllSuccess sampleOutTen).toOption.getD
      ([], [])).2.length = 2 * sampleOutTen.length ∧
    ((previewLoop envAllSuccess sampleOutTen).toOption.getD
      ([], [])).1.length = sampleOutTen.length :=
  previewFetches_sequential envAllSuccess sampleOutTen _ _ rfl

/-! Claim C1. -/

/-- Primary record of selection A. -/
def pdataA : JVal :=
  .obj [("name", .str "A"), ("species", .obj [("url", .str "SA")])]

/-- Species record of selection A. -/
def sdataA : JVal :=
  .obj [("flavor_text_entries",
    .arr [.obj [("flavor_text", .str "flavor A")]])]

/-- Primary record of selection B. -/
def pdataB : JVal :=
  .obj [("name", .str "B"), ("species", .obj [("url", .str "SB")])]

/-- Species record of selection B. -/
def sdataB : JVal :=
  .obj [("flavor_text_entries",
    .arr [.obj [("flavor_text", .str "flavor B")]])]

/-- Network serving the two overlapping selections A and B. -/
def envAB : Fetch := fun u =>
  if u = "A" then .resp true (.ok pdataA)
  else if u = "SA" then .resp true (.ok sdataA)
  else if u = "B" then .resp true (.ok pdataB)
  else if u = "SB" then .resp true (.ok sdataB)
  else .netErr

/-- The description text of a detail record, used to tell the two
selections' records apart. -/
def descText : Option JVal → String
  | some (.obj fs) => jsToStrO (lookupField fs "description")
  | _ => ""

/-- The merged record selection A resolves to. -/
def recA : JVal := spreadSet pdataA "description" (.str "flavor A")

/-- The merged record selection B resolves to. -/
def recB : JVal := spreadSet pdataB "description" (.str "flavor B")

/-- C1 counterexample: `selectEntry("A")` then `selectEntry("B")` are
both issued before anything settles; B's two fetches settle first and
A's settle afterwards.  Once both invocations have completed, the
detail slot holds A's record — the stale A result overwrote the newer
selection B, so last-selection-wins does not hold. -/
theorem lastSelection_counterexample :
    (runSched envAB (overlapDetail "A" "B" initialState)
      [.b, .b, .a, .a]).st.selectedPokemon = some recA ∧
    (runSched envAB (overlapDetail "A" "B" initialState)
      [.b, .b, .a, .a]).taskA = none ∧
    (runSched envAB (overlapDetail "A" "B" initialState)
      [.b, .b, .a, .a]).taskB = none ∧
    descText (some recA) = "flavor A" ∧
    descText (some recB) = "flavor B" ∧
    (runSched envAB (overlapDetail "A" "B" initialState)
      [.b, .b, .a, .a]).st.selectedPokemon ≠ some recB :=
  ⟨rfl, rfl, rfl, rfl, rfl,
    fun h =>
      (by decide : ("flavor A" : String) ≠ "flavor B")
        (congrArg descText h)⟩

/-- C1 (amended): the code carries no generation token and discards
nothing: when two `selectEntry` invocations overlap, the detail slot
ends up holding the record of whichever invocation's fetches settled
last, regardless of selection order — if A's resolution settles after
B's, A's stale record overwrites `detailState.data`; only when B's
settles last does B's record win. -/
theorem lastSettlementWins (env : Fetch) (uA uB : String) (st : AppState)
    (dA : JVal) (suA : Option JVal) (sA descA : JVal)
    (dB : JVal) (suB : Option JVal) (sB descB : JVal)
    (hA1 : fetchJson env uA = .ok dA)
    (hA2 : speciesUrlExpr dA = .ok suA)
    (hA3 : fetchJson env (jsToStrO suA) = .ok sA)
    (hA4 : descOf sA = .ok descA)
    (hB1 : fetchJson env uB = .ok dB)
    (hB2 : speciesUrlExpr dB = .ok suB)
    (hB3 : fetchJson env (jsToStrO suB) = .ok sB)
    (hB4 : descOf sB = .ok descB) :
    (runSched env (overlapDetail uA uB st)
      [.b, .b, .a, .a]).st.selectedPokemon =
      some (spreadSet dA "description" descA) ∧
    (runSched env (overlapDetail uA uB st)
      [.a, .a, .b, .b]).st.selectedPokemon =
      some (spreadSet dB "description" descB) := by
  constructor <;>
    simp [runSched, mstep, stepDetail, overlapDetail, startDetail,
      hA1, hA2, hA3, hA4, hB1, hB2, hB3, hB4]

theorem lastSettlementWins_witness :
    (runSched envAB (overlapDetail "A" "B" initialState)
      [.b, .b, .a, .a]).st.selectedPokemon =
      some (spreadSet pdataA "description" (.str "flavor A")) ∧
    (runSched envAB (overlapDetail "A" "B" initialState)
      [.a, .a, .b, .b]).st.selectedPokemon =
      some (spreadSet pdataB "description" (.str "flavor B")) :=
  lastSettlementWins envAB "A" "B" initialState pdataA (some (.str "SA"))
    sdataA (.str "flavor A") pdataB (some (.str "SB")) sdataB
    (.str "flavor B") rfl rfl rfl rfl rfl rfl rfl rfl
